import Mathlib

/-!
Shallow embedding of the CelestialSim N-body physics core
(src/nbody_simulation_optimized.cpp), together with theorems settling the
specification claims about its force model, Verlet integrator, collision
merge rule, adaptive time-stepping and energy accounting.

C++ `double` arithmetic is modelled by exact real arithmetic over `ℝ`
(the Lean convention `x / 0 = 0` stands in for the IEEE non-finite results,
which are called out explicitly where a claim is about them).
-/

namespace CelestialSim

noncomputable section

/-- Gravitational constant, `const double G = 6.67430e-11`. -/
def G : ℝ := 6.67430e-11

/-- Source `struct SimulationConfig` with its in-source default member values. -/
structure SimulationConfig where
  use_adaptive_timestep : Bool := true
  enable_collision_detection : Bool := true
  collision_distance_factor : ℝ := 2.0
  theta : ℝ := 0.5
  max_depth : ℕ := 12
  energy_tolerance : ℝ := 1e-6
  enable_energy_monitoring : Bool := true

/-- Source `struct Vector3 { double x, y, z; }`. -/
@[ext] structure Vector3 where
  x : ℝ
  y : ℝ
  z : ℝ

/-- Source `Vector3 operator+(const Vector3&)`. -/
def Vector3.add (v w : Vector3) : Vector3 := ⟨v.x + w.x, v.y + w.y, v.z + w.z⟩

/-- Source `Vector3 operator-(const Vector3&)`. -/
def Vector3.sub (v w : Vector3) : Vector3 := ⟨v.x - w.x, v.y - w.y, v.z - w.z⟩

/-- Componentwise negation (used to state the Newton third law; the source
builds the negated direction vector by swapping the subtraction operands). -/
def Vector3.neg (v : Vector3) : Vector3 := ⟨-v.x, -v.y, -v.z⟩

/-- Source `Vector3 operator*(double scalar)`. -/
def Vector3.mul (v : Vector3) (s : ℝ) : Vector3 := ⟨v.x * s, v.y * s, v.z * s⟩

/-- Source `Vector3 operator/(double scalar)`. -/
def Vector3.div (v : Vector3) (s : ℝ) : Vector3 := ⟨v.x / s, v.y / s, v.z / s⟩

instance : Zero Vector3 := ⟨⟨0, 0, 0⟩⟩

instance : Add Vector3 := ⟨Vector3.add⟩

instance : Neg Vector3 := ⟨Vector3.neg⟩

instance : Sub Vector3 := ⟨Vector3.sub⟩

instance : AddCommGroup Vector3 where
  add := Vector3.add
  zero := ⟨0, 0, 0⟩
  neg := Vector3.neg
  sub := Vector3.sub
  nsmul := nsmulRec
  zsmul := zsmulRec
  add_assoc a b c := by
    apply Vector3.ext
    · exact add_assoc a.x b.x c.x
    · exact add_assoc a.y b.y c.y
    · exact add_assoc a.z b.z c.z
  zero_add a := by
    apply Vector3.ext
    · exact zero_add a.x
    · exact zero_add a.y
    · exact zero_add a.z
  add_zero a := by
    apply Vector3.ext
    · exact add_zero a.x
    · exact add_zero a.y
    · exact add_zero a.z
  add_comm a b := by
    apply Vector3.ext
    · exact add_comm a.x b.x
    · exact add_comm a.y b.y
    · exact add_comm a.z b.z
  neg_add_cancel a := by
    apply Vector3.ext
    · exact neg_add_cancel a.x
    · exact neg_add_cancel a.y
    · exact neg_add_cancel a.z
  sub_eq_add_neg a b := by
    apply Vector3.ext
    · exact sub_eq_add_neg a.x b.x
    · exact sub_eq_add_neg a.y b.y
    · exact sub_eq_add_neg a.z b.z

instance : HMul Vector3 ℝ Vector3 := ⟨Vector3.mul⟩

instance : HDiv Vector3 ℝ Vector3 := ⟨Vector3.div⟩

/-- Source `double magnitude()`. -/
def Vector3.magnitude (v : Vector3) : ℝ :=
  Real.sqrt (v.x * v.x + v.y * v.y + v.z * v.z)

/-- Source `double magnitude_squared()`. -/
def Vector3.magnitude_squared (v : Vector3) : ℝ :=
  v.x * v.x + v.y * v.y + v.z * v.z

/-- Source `Vector3 normalize()`: returns the zero vector when the magnitude is
at most `1e-15`. -/
def Vector3.normalize (v : Vector3) : Vector3 :=
  let mag := v.magnitude
  if mag > 1e-15 then ⟨v.x / mag, v.y / mag, v.z / mag⟩ else ⟨0, 0, 0⟩

/-- Source `double dot(const Vector3&)`. -/
def Vector3.dot (v w : Vector3) : ℝ := v.x * w.x + v.y * w.y + v.z * w.z

/-- Extracting the x component is additive (used to reason about sums of
vectors componentwise). -/
def Vector3.xHom : Vector3 →+ ℝ := ⟨⟨fun v => v.x, by rfl⟩, fun _ _ => by rfl⟩

/-- Extracting the y component is additive. -/
def Vector3.yHom : Vector3 →+ ℝ := ⟨⟨fun v => v.y, by rfl⟩, fun _ _ => by rfl⟩

/-- Extracting the z component is additive. -/
def Vector3.zHom : Vector3 →+ ℝ := ⟨⟨fun v => v.z, by rfl⟩, fun _ _ => by rfl⟩

/-- Scalar multiplication by a fixed factor is additive in the vector
argument (used to pull the `force / mass` accumulation apart). -/
def Vector3.mulHom (c : ℝ) : Vector3 →+ Vector3 :=
  ⟨⟨fun v => v * c, by apply Vector3.ext <;> exact zero_mul c⟩,
   fun a b => by apply Vector3.ext <;> exact add_mul _ _ c⟩

/-- Source `class Body`: per-body physical state. -/
structure Body where
  mass : ℝ
  radius : ℝ
  position : Vector3
  velocity : Vector3
  acceleration : Vector3
  prev_acceleration : Vector3
  name : String
  active : Bool

instance : Inhabited Body := ⟨⟨0, 0, 0, 0, 0, 0, "", false⟩⟩

/-- Source `std::cbrt`, modelled by the real power `x ^ (1/3)` (only applied to
nonnegative quantities in this development). -/
def cbrt (x : ℝ) : ℝ := x ^ ((1 : ℝ) / 3)

/-- The `Body` constructor: estimates the radius from the mass, assuming an
Earth-like density of `5514 kg/m³`, when no positive radius is supplied. -/
def Body.create (m : ℝ) (pos vel : Vector3) (name : String) (r : ℝ) : Body :=
  let radius := if r ≤ 0 then cbrt ((3 * m) / (4 * Real.pi * 5514.0)) else r
  ⟨m, radius, pos, vel, 0, 0, name, true⟩

/-- Source `Body::calculate_force_from`.  The `same : Bool` argument models the
pointer-identity test `this == &other` of the source; system-level passes
instantiate it with equality of the two slot indices. -/
def Body.calculate_force_from (b : Body) (other : Body) (same : Bool) : Vector3 :=
  if !b.active || !other.active || same then ⟨0, 0, 0⟩
  else
    let direction := other.position - b.position
    let distance_sq := direction.magnitude_squared
    let softening := max b.radius other.radius * 0.1
    let softened_sq := distance_sq + softening * softening
    let force_magnitude := G * b.mass * other.mass / softened_sq
    direction.normalize * force_magnitude

/-- Source `Body::check_collision`. -/
def Body.check_collision (cfg : SimulationConfig) (b : Body) (other : Body)
    (same : Bool) : Bool :=
  if !b.active || !other.active || same then false
  else
    let min_distance := (b.radius + other.radius) * cfg.collision_distance_factor
    let distance := (b.position - other.position).magnitude
    decide (distance < min_distance)

/-- Source `Body::verlet_update`: velocity-Verlet step for one body. -/
def Body.verlet_update (b : Body) (dt : ℝ) : Body :=
  if !b.active then b
  else
    let new_position := b.position + b.velocity * dt + b.acceleration * (0.5 * dt * dt)
    let new_acceleration := b.acceleration
    let new_velocity := b.velocity + (b.prev_acceleration + new_acceleration) * (0.5 * dt)
    { b with position := new_position, velocity := new_velocity,
             prev_acceleration := new_acceleration }

/-- Source `Body::kinetic_energy`. -/
def Body.kinetic_energy (b : Body) : ℝ := 0.5 * b.mass * b.velocity.magnitude_squared

/-- Source `Body::potential_energy_with`. -/
def Body.potential_energy_with (b : Body) (other : Body) (same : Bool) : ℝ :=
  if !b.active || !other.active || same then 0
  else
    let distance := (b.position - other.position).magnitude
    if distance < 1e-15 then 0
    else -G * b.mass * other.mass / distance

/-- Source `handle_collision`: perfectly inelastic merge; returns the updated pair
`(body1, body2)` (the source mutates the two references in place). -/
def handle_collision (body1 body2 : Body) : Body × Body :=
  if !body1.active || !body2.active then (body1, body2)
  else
    let total_mass := body1.mass + body2.mass
    let new_velocity := (body1.velocity * body1.mass + body2.velocity * body2.mass) / total_mass
    let new_position := (body1.position * body1.mass + body2.position * body2.mass) / total_mass
    let new_radius := cbrt (body1.radius ^ 3 + body2.radius ^ 3)
    if body2.mass ≤ body1.mass then
      ({ body1 with mass := total_mass, velocity := new_velocity, position := new_position,
                    radius := new_radius, name := body1.name ++ "+" ++ body2.name },
       { body2 with active := false })
    else
      ({ body1 with active := false },
       { body2 with mass := total_mass, velocity := new_velocity, position := new_position,
                    radius := new_radius, name := body1.name ++ "+" ++ body2.name })

/-- Source `calculate_adaptive_timestep`. -/
def calculate_adaptive_timestep (cfg : SimulationConfig) (bodies : List Body)
    (base_timestep : ℝ) : ℝ :=
  if !cfg.use_adaptive_timestep then base_timestep
  else
    let safety_factor : ℝ := 0.1
    let min_timestep :=
      bodies.foldl
        (fun min_timestep body =>
          if !body.active then min_timestep
          else
            let acc_magnitude := body.acceleration.magnitude
            if acc_magnitude > 1e-15 then
              min min_timestep (safety_factor * Real.sqrt (body.radius / acc_magnitude))
            else min_timestep)
        base_timestep
    max (min min_timestep base_timestep) (base_timestep * 0.01)

/-- Source `struct EnergyInfo`. -/
structure EnergyInfo where
  kinetic : ℝ
  potential : ℝ
  total : ℝ
  relative_error : ℝ

/-- The kinetic-energy accumulation loop of `calculate_system_energy`:
only active bodies are added. -/
def kinetic_sum : List Body → ℝ
  | [] => 0
  | b :: rest => (if b.active then b.kinetic_energy else 0) + kinetic_sum rest

/-- Inner loop of the potential-energy accumulation: one body against every
later body in the collection, skipping inactive partners. -/
def pair_potential (b : Body) (rest : List Body) : ℝ :=
  (rest.map (fun other => if other.active then b.potential_energy_with other false else 0)).sum

/-- The triangular (`j > i`) potential-energy accumulation loop of
`calculate_system_energy`, skipping inactive bodies. -/
def potential_sum : List Body → ℝ
  | [] => 0
  | b :: rest => (if b.active then pair_potential b rest else 0) + potential_sum rest

/-- Source `calculate_system_energy`.  The source leaves `relative_error`
uninitialized here (it is assigned separately by the caller); the embedding
sets it to `0`. -/
def calculate_system_energy (bodies : List Body) : EnergyInfo :=
  let kinetic := kinetic_sum bodies
  let potential := potential_sum bodies
  { kinetic := kinetic, potential := potential, total := kinetic + potential,
    relative_error := 0 }

/-- Acceleration accumulated for the body in slot `i` during the force pass
of `run_simulation_threaded`: the loop over all slots `j`, skipping inactive
bodies, adding `calculate_force_from / mass` each time. -/
def accel_of (bodies : List Body) (i : Nat) (b : Body) : Vector3 :=
  ∑ j ∈ Finset.range bodies.length,
    (let other := bodies.getD j default
     if other.active then b.calculate_force_from other (i == j) / b.mass else 0)

/-- The force/acceleration pass of `run_simulation_threaded`: the
acceleration of every active body is reset and re-accumulated from all
active bodies (positions are only read during this pass, so mapping over
the pre-pass snapshot is exact). -/
def accel_pass (bodies : List Body) : List Body :=
  (List.range bodies.length).map fun i =>
    let b := bodies.getD i default
    if b.active then { b with acceleration := accel_of bodies i b } else b

/-- The collision pass of `run_simulation_threaded`: ordered pairs
`(i, j)` with `j > i`, outer index ascending, re-reading the current
(partially merged) collection at every pair, skipping pairs in which either
slot has gone inactive. -/
def collision_pass (cfg : SimulationConfig) (bodies : List Body) : List Body :=
  let n := bodies.length
  (List.range n).foldl
    (fun bs i =>
      ((List.range n).drop (i + 1)).foldl
        (fun bs2 j =>
          let bi := bs2.getD i default
          let bj := bs2.getD j default
          if bi.active then
            if bj.active then
              if bi.check_collision cfg bj (i == j) then
                let p := handle_collision bi bj
                (bs2.set i p.1).set j p.2
              else bs2
            else bs2
          else bs2)
        bs)
    bodies

/-- The integration pass of `run_simulation_threaded`:
`verlet_update` applied to every body. -/
def verlet_pass (bodies : List Body) (dt : ℝ) : List Body :=
  bodies.map (fun b => b.verlet_update dt)

/-- One collision-free simulation step: force accumulation followed by
Verlet integration. -/
def sim_step (bodies : List Body) (dt : ℝ) : List Body :=
  verlet_pass (accel_pass bodies) dt

/-- Total momentum `Σ mᵢ·vᵢ` over the active bodies of the collection. -/
def total_momentum (bodies : List Body) : Vector3 :=
  ∑ i ∈ Finset.range bodies.length,
    (let b := bodies.getD i default
     if b.active then b.velocity * b.mass else 0)

/-- Mass-weighted sum of the stored previous accelerations of the active
bodies (the quantity the velocity-Verlet update feeds into the new
velocities alongside the freshly accumulated accelerations). -/
def weighted_prev_accel_sum (bodies : List Body) : Vector3 :=
  ∑ i ∈ Finset.range bodies.length,
    (let b := bodies.getD i default
     if b.active then b.prev_acceleration * b.mass else 0)

/-- State carried across iterations of the `run_simulation_threaded` loop.
`running` models the shared `simulation_running` cancellation flag as
observed at the top of the iteration. -/
structure SimState where
  bodies : List Body
  iteration : Nat
  max_iterations : Nat
  running : Bool
  base_dt : ℝ
  initial_energy : EnergyInfo
  current_energy : EnergyInfo

/-- The `while (simulation_running && iteration < iterations)` guard. -/
def loop_guard (s : SimState) : Bool :=
  s.running && decide (s.iteration < s.max_iterations)

/-- One iteration of the `run_simulation_threaded` loop body: adaptive-dt
computation, force pass, collision pass (when enabled), Verlet pass, and the
periodic (every 100 iterations) energy recomputation.  Console output,
snapshot publication and CSV export are I/O side effects with no influence
on the loop state. -/
def loop_body (cfg : SimulationConfig) (s : SimState) : SimState :=
  let adaptive_dt := calculate_adaptive_timestep cfg s.bodies s.base_dt
  let bodies1 := accel_pass s.bodies
  let bodies2 := if cfg.enable_collision_detection then collision_pass cfg bodies1 else bodies1
  let bodies3 := verlet_pass bodies2 adaptive_dt
  let current :=
    if cfg.enable_energy_monitoring && s.iteration % 100 == 0 then
      let e := calculate_system_energy bodies3
      { e with relative_error :=
          |e.total - s.initial_energy.total| / |s.initial_energy.total| }
    else s.current_energy
  { s with bodies := bodies3, current_energy := current, iteration := s.iteration + 1 }

/-! Concrete sample bodies used to exercise the definitions. -/

/-- A generic active body with distinct kinematic fields. -/
def bodyP : Body := ⟨1, 1, ⟨0, 0, 0⟩, ⟨1, 0, 0⟩, ⟨0, 1, 0⟩, ⟨0, 0, 1⟩, "p", true⟩

/-- A heavier active body (mass 2). -/
def bodyQ : Body := ⟨2, 1, ⟨0, 0, 0⟩, ⟨1, 0, 0⟩, 0, 0, "q", true⟩

/-- A lighter active body (mass 1). -/
def bodyR : Body := ⟨1, 1, ⟨3, 0, 0⟩, ⟨0, 1, 0⟩, 0, 0, "r", true⟩

/-- An active unit-mass body at the origin. -/
def nearBodyA : Body := ⟨1, 1, ⟨0, 0, 0⟩, 0, 0, 0, "a", true⟩

/-- An active unit-mass body at center distance `1e-16` from the origin
(below the `1e-15` normalization threshold). -/
def nearBodyB : Body := ⟨1, 1, ⟨1e-16, 0, 0⟩, 0, 0, 0, "b", true⟩

/-- An active unit-mass body at center distance `1` from the origin. -/
def farBodyB : Body := ⟨1, 1, ⟨1, 0, 0⟩, 0, 0, 0, "d", true⟩

/-- An active body at rest whose stored previous acceleration is nonzero. -/
def prevBody : Body := ⟨1, 1, 0, 0, 0, ⟨1, 0, 0⟩, "e", true⟩

/-- An active moving body with zero stored previous acceleration. -/
def restBody : Body := ⟨1, 1, 0, ⟨1, 0, 0⟩, 0, 0, "f", true⟩

/-- An active body with zero mass. -/
def zeroMassBody : Body := ⟨0, 1, 0, ⟨1, 0, 0⟩, 0, 0, "z", true⟩

/-- An inactive body with nonzero kinematic state. -/
def idleBody : Body := ⟨1, 1, ⟨2, 0, 0⟩, ⟨3, 0, 0⟩, ⟨0, 0, 4⟩, ⟨5, 0, 0⟩, "i", false⟩

end

/-! ## Theorems -/

section

@[simp] theorem Vector3.add_x (v w : Vector3) : (v + w).x = v.x + w.x := rfl

@[simp] theorem Vector3.add_y (v w : Vector3) : (v + w).y = v.y + w.y := rfl

@[simp] theorem Vector3.add_z (v w : Vector3) : (v + w).z = v.z + w.z := rfl

@[simp] theorem Vector3.sub_x (v w : Vector3) : (v - w).x = v.x - w.x := rfl

@[simp] theorem Vector3.sub_y (v w : Vector3) : (v - w).y = v.y - w.y := rfl

@[simp] theorem Vector3.sub_z (v w : Vector3) : (v - w).z = v.z - w.z := rfl

@[simp] theorem Vector3.neg_x (v : Vector3) : (-v).x = -v.x := rfl

@[simp] theorem Vector3.neg_y (v : Vector3) : (-v).y = -v.y := rfl

@[simp] theorem Vector3.neg_z (v : Vector3) : (-v).z = -v.z := rfl

@[simp] theorem Vector3.zero_x : (0 : Vector3).x = 0 := rfl

@[simp] theorem Vector3.zero_y : (0 : Vector3).y = 0 := rfl

@[simp] theorem Vector3.zero_z : (0 : Vector3).z = 0 := rfl

@[simp] theorem Vector3.mul_x (v : Vector3) (s : ℝ) : (v * s).x = v.x * s := rfl

@[simp] theorem Vector3.mul_y (v : Vector3) (s : ℝ) : (v * s).y = v.y * s := rfl

@[simp] theorem Vector3.mul_z (v : Vector3) (s : ℝ) : (v * s).z = v.z * s := rfl

@[simp] theorem Vector3.div_x (v : Vector3) (s : ℝ) : (v / s).x = v.x / s := rfl

@[simp] theorem Vector3.div_y (v : Vector3) (s : ℝ) : (v / s).y = v.y / s := rfl

@[simp] theorem Vector3.div_z (v : Vector3) (s : ℝ) : (v / s).z = v.z / s := rfl

@[simp] theorem Vector3.mk_zero : (⟨0, 0, 0⟩ : Vector3) = 0 := rfl

theorem Vector3.add_mul_dist (u v : Vector3) (c : ℝ) : (u + v) * c = u * c + v * c := by
  apply Vector3.ext <;> simp <;> ring

theorem Vector3.mul_mul (v : Vector3) (a b : ℝ) : v * a * b = v * (a * b) := by
  apply Vector3.ext <;> simp <;> ring

theorem Vector3.zero_mul (c : ℝ) : (0 : Vector3) * c = 0 := by
  apply Vector3.ext <;> simp

theorem Vector3.mul_zero (v : Vector3) : v * (0 : ℝ) = 0 := by
  apply Vector3.ext <;> simp

theorem Vector3.zero_div (c : ℝ) : (0 : Vector3) / c = 0 := by
  apply Vector3.ext <;> simp

theorem Vector3.neg_mul (v : Vector3) (c : ℝ) : (-v) * c = -(v * c) := by
  apply Vector3.ext <;> simp

theorem Vector3.magnitude_squared_nonneg (v : Vector3) : 0 ≤ v.magnitude_squared := by
  unfold Vector3.magnitude_squared
  nlinarith [mul_self_nonneg v.x, mul_self_nonneg v.y, mul_self_nonneg v.z]

theorem Vector3.magnitude_nonneg (v : Vector3) : 0 ≤ v.magnitude := Real.sqrt_nonneg _

theorem Vector3.magnitude_sq (v : Vector3) : v.magnitude ^ 2 = v.magnitude_squared := by
  have hnn : (0 : ℝ) ≤ v.x * v.x + v.y * v.y + v.z * v.z := by
    nlinarith [mul_self_nonneg v.x, mul_self_nonneg v.y, mul_self_nonneg v.z]
  unfold Vector3.magnitude Vector3.magnitude_squared
  rw [Real.sq_sqrt hnn]

theorem Vector3.magnitude_neg (v : Vector3) : (-v).magnitude = v.magnitude := by
  unfold Vector3.magnitude
  congr 1
  simp

theorem Vector3.magnitude_zero : (0 : Vector3).magnitude = 0 := by
  unfold Vector3.magnitude
  simp

theorem Vector3.magnitude_mul (v : Vector3) (c : ℝ) :
    (v * c).magnitude = v.magnitude * |c| := by
  have hnn : (0 : ℝ) ≤ v.x * v.x + v.y * v.y + v.z * v.z := by
    nlinarith [mul_self_nonneg v.x, mul_self_nonneg v.y, mul_self_nonneg v.z]
  have harg : (v * c).x * (v * c).x + (v * c).y * (v * c).y + (v * c).z * (v * c).z
      = (v.x * v.x + v.y * v.y + v.z * v.z) * c ^ 2 := by simp; ring
  unfold Vector3.magnitude
  rw [harg, Real.sqrt_mul hnn, Real.sqrt_sq_eq_abs]

theorem Vector3.normalize_neg (v : Vector3) : (-v).normalize = -v.normalize := by
  by_cases h : v.magnitude > 1e-15
  · simp only [Vector3.normalize, Vector3.magnitude_neg, if_pos h]
    apply Vector3.ext <;> simp <;> ring
  · simp only [Vector3.normalize, Vector3.magnitude_neg, if_neg h]
    apply Vector3.ext <;> simp

theorem Vector3.magnitude_squared_neg (v : Vector3) :
    (-v).magnitude_squared = v.magnitude_squared := by
  unfold Vector3.magnitude_squared
  simp

theorem Vector3.magnitude_squared_sub_comm (v w : Vector3) :
    (v - w).magnitude_squared = (w - v).magnitude_squared := by
  unfold Vector3.magnitude_squared
  simp
  ring

/-- When the magnitude clears the `1e-15` threshold, `normalize` is exact
componentwise division by the magnitude. -/
theorem Vector3.normalize_of_large (v : Vector3) (h : v.magnitude > 1e-15) :
    v.normalize = v / v.magnitude := by
  unfold Vector3.normalize
  rw [if_pos h]
  rfl

/-- A vector of magnitude above the threshold normalizes to a unit vector. -/
theorem Vector3.magnitude_normalize (v : Vector3) (h : v.magnitude > 1e-15) :
    v.normalize.magnitude = 1 := by
  rw [Vector3.normalize_of_large v h]
  have hpos : 0 < v.magnitude := lt_trans (by norm_num) h
  have : v / v.magnitude = v * (v.magnitude)⁻¹ := by
    apply Vector3.ext <;> simp [division_def]
  rw [this, Vector3.magnitude_mul, abs_inv, abs_of_pos hpos,
      mul_inv_cancel₀ (ne_of_gt hpos)]

/-- A zero-mass body exerts no force (the mass product in the numerator
vanishes). -/
theorem force_zero_of_mass_zero (b o : Body) (s : Bool) (h : b.mass = 0) :
    b.calculate_force_from o s = 0 := by
  unfold Body.calculate_force_from
  split
  · simp
  · simp only [h, mul_zero, zero_mul, zero_div, Vector3.mul_zero]

/-- Dividing a pairwise force by the own mass of the body and multiplying back
recovers the force: exact when the mass is nonzero, and degenerate-zero on
both sides when the mass is zero. -/
theorem force_div_mass_mul_mass (b o : Body) (s : Bool) :
    b.calculate_force_from o s / b.mass * b.mass = b.calculate_force_from o s := by
  by_cases hm : b.mass = 0
  · rw [force_zero_of_mass_zero b o s hm, Vector3.zero_div, Vector3.zero_mul]
  · apply Vector3.ext <;> simp <;> exact div_mul_cancel₀ _ hm

/-- The Newton third law at the level of `calculate_force_from`: swapping the
two bodies (with the same identity flag) negates the force exactly. -/
theorem force_antisym (b1 b2 : Body) (s : Bool) :
    b1.calculate_force_from b2 s = -(b2.calculate_force_from b1 s) := by
  unfold Body.calculate_force_from
  cases hb1 : b1.active <;> cases hb2 : b2.active <;> cases s <;> simp
  rw [show b1.position - b2.position = -(b2.position - b1.position) by
        apply Vector3.ext <;> simp,
      Vector3.normalize_neg, Vector3.neg_mul, neg_neg,
      Vector3.magnitude_squared_neg, max_comm b2.radius b1.radius,
      show G * b2.mass * b1.mass = G * b1.mass * b2.mass by ring]

theorem Vector3.magnitude_mk_x (a : ℝ) : (Vector3.mk a 0 0).magnitude = |a| := by
  unfold Vector3.magnitude
  rw [show a * a + 0 * 0 + 0 * 0 = a ^ 2 by ring, Real.sqrt_sq_eq_abs]

/-- C2: one Verlet step with step size `dt` on an active body sets
`position := position + velocity·dt + 0.5·acceleration·dt²`, sets
`velocity := velocity + 0.5·(prev_acceleration + acceleration)·dt`, and
stores the acceleration used in this step into `prev_acceleration`. -/
theorem verlet_update_spec (b : Body) (dt : ℝ) (h : b.active = true) :
    (b.verlet_update dt).position
        = b.position + b.velocity * dt + b.acceleration * (0.5 * dt ^ 2) ∧
    (b.verlet_update dt).velocity
        = b.velocity + (b.prev_acceleration + b.acceleration) * (0.5 * dt) ∧
    (b.verlet_update dt).prev_acceleration = b.acceleration := by
  unfold Body.verlet_update
  simp only [h, Bool.not_true, Bool.false_eq_true, if_false, and_true]
  apply Vector3.ext <;>
    simp only [Vector3.add_x, Vector3.add_y, Vector3.add_z,
      Vector3.mul_x, Vector3.mul_y, Vector3.mul_z] <;> ring

/-- Witness: `verlet_update_spec` applied to the concrete body `bodyP`
with `dt = 1`. -/
theorem verlet_update_spec_witness :
    bodyP.active = true ∧
    ((bodyP.verlet_update (1 : ℝ)).position
        = bodyP.position + bodyP.velocity * (1 : ℝ)
            + bodyP.acceleration * (0.5 * (1 : ℝ) ^ 2) ∧
     (bodyP.verlet_update (1 : ℝ)).velocity
        = bodyP.velocity + (bodyP.prev_acceleration + bodyP.acceleration)
            * (0.5 * (1 : ℝ)) ∧
     (bodyP.verlet_update (1 : ℝ)).prev_acceleration = bodyP.acceleration) :=
  ⟨rfl, verlet_update_spec bodyP 1 rfl⟩

/-- C3: merging two active bodies leaves exactly one of them active — the
heavier one, with ties going to the first operand — with mass `m1 + m2`,
momentum-conserving velocity `(m1·v1 + m2·v2)/(m1 + m2)`, and the absorbed
active flag of the absorbed body cleared. -/
theorem handle_collision_spec (b1 b2 : Body) (h1 : b1.active = true)
    (h2 : b2.active = true) :
    (b2.mass ≤ b1.mass →
      (handle_collision b1 b2).1.active = true ∧
      (handle_collision b1 b2).2.active = false ∧
      (handle_collision b1 b2).1.mass = b1.mass + b2.mass ∧
      (handle_collision b1 b2).1.velocity
        = (b1.velocity * b1.mass + b2.velocity * b2.mass) / (b1.mass + b2.mass)) ∧
    (b1.mass < b2.mass →
      (handle_collision b1 b2).2.active = true ∧
      (handle_collision b1 b2).1.active = false ∧
      (handle_collision b1 b2).2.mass = b1.mass + b2.mass ∧
      (handle_collision b1 b2).2.velocity
        = (b1.velocity * b1.mass + b2.velocity * b2.mass) / (b1.mass + b2.mass)) := by
  unfold handle_collision
  simp only [h1, h2, Bool.not_true, Bool.or_self, Bool.false_eq_true, if_false]
  constructor
  · intro hle
    rw [if_pos hle]
    exact ⟨rfl, rfl, rfl, rfl⟩
  · intro hlt
    rw [if_neg (not_le.mpr hlt)]
    exact ⟨rfl, rfl, rfl, rfl⟩

/-- Witness: `handle_collision_spec` applied to the concrete bodies
`bodyQ` (mass 2) and `bodyR` (mass 1). -/
theorem handle_collision_spec_witness :
    bodyQ.active = true ∧ bodyR.active = true ∧
    ((bodyR.mass ≤ bodyQ.mass →
      (handle_collision bodyQ bodyR).1.active = true ∧
      (handle_collision bodyQ bodyR).2.active = false ∧
      (handle_collision bodyQ bodyR).1.mass = bodyQ.mass + bodyR.mass ∧
      (handle_collision bodyQ bodyR).1.velocity
        = (bodyQ.velocity * bodyQ.mass + bodyR.velocity * bodyR.mass)
            / (bodyQ.mass + bodyR.mass)) ∧
     (bodyQ.mass < bodyR.mass →
      (handle_collision bodyQ bodyR).2.active = true ∧
      (handle_collision bodyQ bodyR).1.active = false ∧
      (handle_collision bodyQ bodyR).2.mass = bodyQ.mass + bodyR.mass ∧
      (handle_collision bodyQ bodyR).2.velocity
        = (bodyQ.velocity * bodyQ.mass + bodyR.velocity * bodyR.mass)
            / (bodyQ.mass + bodyR.mass))) :=
  ⟨rfl, rfl, handle_collision_spec bodyQ bodyR rfl rfl⟩

/-- C4: with adaptive time-stepping enabled, the adjusted step always lies
in the closed interval `[0.01·base_dt, base_dt]` for positive `base_dt`. -/
theorem adaptive_timestep_bounds (cfg : SimulationConfig) (bodies : List Body)
    (base_dt : ℝ) (hcfg : cfg.use_adaptive_timestep = true) (hpos : 0 < base_dt) :
    0.01 * base_dt ≤ calculate_adaptive_timestep cfg bodies base_dt ∧
    calculate_adaptive_timestep cfg bodies base_dt ≤ base_dt := by
  unfold calculate_adaptive_timestep
  simp only [hcfg, Bool.not_true, Bool.false_eq_true, if_false]
  constructor
  · exact le_trans (le_of_eq (by ring)) (le_max_right _ _)
  · exact max_le (min_le_right _ _) (by nlinarith)

/-- Witness: `adaptive_timestep_bounds` with the default configuration, an
empty body collection and `base_dt = 1`. -/
theorem adaptive_timestep_bounds_witness :
    SimulationConfig.use_adaptive_timestep {} = true ∧ (0 : ℝ) < 1 ∧
    (0.01 * 1 ≤ calculate_adaptive_timestep {} [] 1 ∧
     calculate_adaptive_timestep {} [] 1 ≤ 1) :=
  ⟨rfl, by norm_num, adaptive_timestep_bounds {} [] 1 rfl (by norm_num)⟩

/-- C8: for two distinct active bodies at distinct positions, the force one
computes from the other is exactly the negation of the force the other
computes from it — equal magnitudes, exactly opposite directions. -/
theorem force_action_reaction (b1 b2 : Body) (h1 : b1.active = true)
    (h2 : b2.active = true) (hpos : b1.position ≠ b2.position) :
    b1.calculate_force_from b2 false = -(b2.calculate_force_from b1 false) ∧
    (b1.calculate_force_from b2 false).magnitude
      = (b2.calculate_force_from b1 false).magnitude := by
  refine ⟨force_antisym b1 b2 false, ?_⟩
  rw [force_antisym b1 b2 false, Vector3.magnitude_neg]

/-- Witness: `force_action_reaction` applied to `nearBodyA` (at the origin)
and `farBodyB` (at distance 1). -/
theorem force_action_reaction_witness :
    nearBodyA.active = true ∧ farBodyB.active = true ∧
    nearBodyA.position ≠ farBodyB.position ∧
    (nearBodyA.calculate_force_from farBodyB false
        = -(farBodyB.calculate_force_from nearBodyA false) ∧
     (nearBodyA.calculate_force_from farBodyB false).magnitude
        = (farBodyB.calculate_force_from nearBodyA false).magnitude) := by
  have hne : nearBodyA.position ≠ farBodyB.position := by
    unfold nearBodyA farBodyB
    intro h
    have := congrArg Vector3.x h
    norm_num at this
  exact ⟨rfl, rfl, hne, force_action_reaction nearBodyA farBodyB rfl rfl hne⟩

/-- C9: the loop body of `run_simulation_threaded` never clears the running
flag, the loop guard is insensitive to the recorded energy information
(energy drift beyond tolerance is a report-only condition), and the guard
fails exactly when the external cancellation flag is cleared or the
iteration bound is reached. -/
theorem loop_guard_ignores_energy (cfg : SimulationConfig) (s : SimState) :
    (loop_body cfg s).running = s.running ∧
    (loop_body cfg s).max_iterations = s.max_iterations ∧
    (∀ e0 e1 : EnergyInfo,
      loop_guard { s with initial_energy := e0, current_energy := e1 } = loop_guard s) ∧
    (loop_guard s = false ↔ s.running = false ∨ s.max_iterations ≤ s.iteration) := by
  refine ⟨rfl, rfl, fun e0 e1 => rfl, ?_⟩
  unfold loop_guard
  cases hr : s.running <;> simp [Nat.not_lt]

/-- C10: the pairwise potential energy of two active bodies whose center
distance is below `1e-15` is exactly `0`. -/
theorem potential_energy_coincident_zero (b1 b2 : Body) (same : Bool)
    (h1 : b1.active = true) (h2 : b2.active = true)
    (hd : (b1.position - b2.position).magnitude < 1e-15) :
    b1.potential_energy_with b2 same = 0 := by
  unfold Body.potential_energy_with
  cases same <;> simp [h1, h2, hd]

/-- Witness: `potential_energy_coincident_zero` applied to `nearBodyA` and
`nearBodyB`, whose center distance is `1e-16`. -/
theorem potential_energy_coincident_zero_witness :
    nearBodyA.active = true ∧ nearBodyB.active = true ∧
    (nearBodyA.position - nearBodyB.position).magnitude < 1e-15 ∧
    nearBodyA.potential_energy_with nearBodyB false = 0 := by
  have hd : (nearBodyA.position - nearBodyB.position).magnitude < 1e-15 := by
    have : nearBodyA.position - nearBodyB.position = Vector3.mk (-1e-16) 0 0 := by
      unfold nearBodyA nearBodyB
      apply Vector3.ext <;> simp
    rw [this, Vector3.magnitude_mk_x]
    rw [abs_of_nonpos (by norm_num)]
    norm_num
  exact ⟨rfl, rfl, hd, potential_energy_coincident_zero nearBodyA nearBodyB false rfl rfl hd⟩

/-- C1 falsified at a concrete input: two distinct active unit-mass bodies
whose center distance `1e-16` is below the `1e-15` normalization threshold.
`normalize` then returns the zero vector, so the computed force is zero
while the claimed magnitude `G·m1·m2/(d² + s²)` is positive. -/
theorem force_law_counterexample :
    (nearBodyA.calculate_force_from nearBodyB false).magnitude
      ≠ G * nearBodyA.mass * nearBodyB.mass
          / ((nearBodyB.position - nearBodyA.position).magnitude ^ 2
              + (max nearBodyA.radius nearBodyB.radius * 0.1) ^ 2) := by
  have hdir : nearBodyB.position - nearBodyA.position = Vector3.mk 1e-16 0 0 := by
    unfold nearBodyA nearBodyB
    apply Vector3.ext <;> simp
  have hmag : (nearBodyB.position - nearBodyA.position).magnitude = 1e-16 := by
    rw [hdir, Vector3.magnitude_mk_x, abs_of_nonneg (by norm_num)]
  have hnorm : (nearBodyB.position - nearBodyA.position).normalize = 0 := by
    simp only [Vector3.normalize, hmag]
    rw [if_neg (by norm_num)]
    rfl
  have hforce : nearBodyA.calculate_force_from nearBodyB false = 0 := by
    unfold Body.calculate_force_from
    simp only [show nearBodyA.active = true from rfl, show nearBodyB.active = true from rfl,
      Bool.not_true, Bool.or_self, Bool.or_false, Bool.false_eq_true, if_false]
    rw [hnorm, Vector3.zero_mul]
  rw [hforce, Vector3.magnitude_zero, hmag]
  norm_num [nearBodyA, nearBodyB, G]

/-- C1 (amended): for distinct active bodies with nonnegative masses whose
center distance `d` exceeds the `1e-15` normalization threshold, the
computed force has magnitude exactly `G·m1·m2/(d² + s²)` with softening
`s = 0.1·max(r1, r2)`, and is directed along the unit vector from the body
toward the other body. -/
theorem force_law_amended (b1 b2 : Body) (h1 : b1.active = true)
    (h2 : b2.active = true) (hm1 : 0 ≤ b1.mass) (hm2 : 0 ≤ b2.mass)
    (hd : (b2.position - b1.position).magnitude > 1e-15) :
    (b1.calculate_force_from b2 false).magnitude
      = G * b1.mass * b2.mass
          / ((b2.position - b1.position).magnitude ^ 2
              + (max b1.radius b2.radius * 0.1) ^ 2) ∧
    b1.calculate_force_from b2 false
      = ((b2.position - b1.position) / (b2.position - b1.position).magnitude)
          * (G * b1.mass * b2.mass
              / ((b2.position - b1.position).magnitude ^ 2
                  + (max b1.radius b2.radius * 0.1) ^ 2)) := by
  have hden : (b2.position - b1.position).magnitude_squared
        + max b1.radius b2.radius * 0.1 * (max b1.radius b2.radius * 0.1)
      = (b2.position - b1.position).magnitude ^ 2
        + (max b1.radius b2.radius * 0.1) ^ 2 := by
    rw [Vector3.magnitude_sq]
    ring
  have hG : (0 : ℝ) ≤ G := by norm_num [G]
  have hf : 0 ≤ G * b1.mass * b2.mass
      / ((b2.position - b1.position).magnitude ^ 2
          + (max b1.radius b2.radius * 0.1) ^ 2) := by
    apply div_nonneg (mul_nonneg (mul_nonneg hG hm1) hm2)
    positivity
  unfold Body.calculate_force_from
  simp only [h1, h2, Bool.not_true, Bool.or_self, Bool.or_false,
    Bool.false_eq_true, if_false]
  rw [hden]
  constructor
  · rw [Vector3.magnitude_mul, Vector3.magnitude_normalize _ hd, one_mul,
      abs_of_nonneg hf]
  · rw [Vector3.normalize_of_large _ hd]

/-- Witness: `force_law_amended` applied to `nearBodyA` (at the origin) and
`farBodyB` (at distance 1). -/
theorem force_law_amended_witness :
    nearBodyA.active = true ∧ farBodyB.active = true ∧
    (0 : ℝ) ≤ nearBodyA.mass ∧ (0 : ℝ) ≤ farBodyB.mass ∧
    (farBodyB.position - nearBodyA.position).magnitude > 1e-15 ∧
    ((nearBodyA.calculate_force_from farBodyB false).magnitude
        = G * nearBodyA.mass * farBodyB.mass
            / ((farBodyB.position - nearBodyA.position).magnitude ^ 2
                + (max nearBodyA.radius farBodyB.radius * 0.1) ^ 2) ∧
     nearBodyA.calculate_force_from farBodyB false
        = ((farBodyB.position - nearBodyA.position)
              / (farBodyB.position - nearBodyA.position).magnitude)
            * (G * nearBodyA.mass * farBodyB.mass
                / ((farBodyB.position - nearBodyA.position).magnitude ^ 2
                    + (max nearBodyA.radius farBodyB.radius * 0.1) ^ 2))) := by
  have hd : (farBodyB.position - nearBodyA.position).magnitude > 1e-15 := by
    have hsub : farBodyB.position - nearBodyA.position = Vector3.mk 1 0 0 := by
      unfold nearBodyA farBodyB
      apply Vector3.ext <;> simp
    rw [hsub, Vector3.magnitude_mk_x, abs_of_nonneg (by norm_num)]
    norm_num
  exact ⟨rfl, rfl, by norm_num [nearBodyA], by norm_num [farBodyB], hd,
    force_law_amended nearBodyA farBodyB rfl rfl (by norm_num [nearBodyA])
      (by norm_num [farBodyB]) hd⟩

/-- C7: the spec requires a body with zero (or near-zero) mass to be
treated as inert/inactive so that the `force/mass` division can never
produce a non-finite value; the code has no such guard.  At the concrete
failing input — a single active body of mass `0` — the force pass still
processes the body as active (in the C++ doubles its
`acceleration += force / mass` accumulation is `0/0`, i.e. NaN), and the
integration pass moves the body rather than holding it inert. -/
theorem zero_mass_body_not_inert :
    zeroMassBody.mass = 0 ∧ zeroMassBody.active = true ∧
    ((accel_pass [zeroMassBody]).getD 0 default).active = true ∧
    (zeroMassBody.verlet_update 1).position ≠ zeroMassBody.position := by
  refine ⟨rfl, rfl, rfl, ?_⟩
  intro hcontra
  have hx := congrArg Vector3.x hcontra
  simp [Body.verlet_update, zeroMassBody] at hx

theorem map_getD_range {α : Type} (l : List α) (d : α) :
    (List.range l.length).map (fun i => l.getD i d) = l := by
  induction l with
  | nil => rfl
  | cons a t ih =>
    rw [show (a :: t).length = t.length + 1 from rfl, List.range_succ_eq_map,
      List.map_cons, List.map_map]
    congr 1

/-- An inactive body is completely unchanged by `verlet_update`. -/
theorem verlet_update_inactive (b : Body) (dt : ℝ) (hb : b.active = false) :
    b.verlet_update dt = b := by
  unfold Body.verlet_update
  simp [hb]

theorem accel_pass_all_inactive (bodies : List Body)
    (h : ∀ x ∈ bodies, x.active = false) :
    accel_pass bodies = bodies := by
  unfold accel_pass
  have hcongr : (List.range bodies.length).map
        (fun i =>
          let b := bodies.getD i default
          if b.active then { b with acceleration := accel_of bodies i b } else b)
      = (List.range bodies.length).map (fun i => bodies.getD i default) := by
    apply List.map_congr_left
    intro i hi
    have hlt : i < bodies.length := List.mem_range.mp hi
    have hb : (bodies.getD i default).active = false := by
      rw [List.getD_eq_getElem bodies default hlt]
      exact h _ (List.getElem_mem hlt)
    simp only [hb, Bool.false_eq_true, if_false]
  rw [hcongr, map_getD_range bodies default]

theorem verlet_pass_all_inactive (bodies : List Body) (dt : ℝ)
    (h : ∀ x ∈ bodies, x.active = false) :
    verlet_pass bodies dt = bodies := by
  unfold verlet_pass
  have hcongr : bodies.map (fun b => b.verlet_update dt) = bodies.map id := by
    apply List.map_congr_left
    intro b hbmem
    exact verlet_update_inactive b dt (h b hbmem)
  rw [hcongr, List.map_id]

theorem kinetic_sum_append (l1 l2 : List Body) :
    kinetic_sum (l1 ++ l2) = kinetic_sum l1 + kinetic_sum l2 := by
  induction l1 with
  | nil => simp [kinetic_sum]
  | cons a t ih => simp [kinetic_sum, ih, add_assoc]

theorem kinetic_sum_insert_inactive (b : Body) (hb : b.active = false)
    (l1 l2 : List Body) :
    kinetic_sum (l1 ++ b :: l2) = kinetic_sum (l1 ++ l2) := by
  rw [kinetic_sum_append, kinetic_sum_append,
    show kinetic_sum (b :: l2) = kinetic_sum l2 by simp [kinetic_sum, hb]]

theorem pair_potential_insert_inactive (x b : Body) (hb : b.active = false)
    (l1 l2 : List Body) :
    pair_potential x (l1 ++ b :: l2) = pair_potential x (l1 ++ l2) := by
  unfold pair_potential
  rw [List.map_append, List.map_append, List.sum_append, List.sum_append,
    List.map_cons, List.sum_cons]
  simp [hb]

theorem potential_sum_insert_inactive (b : Body) (hb : b.active = false)
    (l1 l2 : List Body) :
    potential_sum (l1 ++ b :: l2) = potential_sum (l1 ++ l2) := by
  induction l1 with
  | nil => simp [potential_sum, hb]
  | cons x t ih =>
    simp only [List.cons_append, potential_sum, List.append_eq]
    rw [pair_potential_insert_inactive x b hb t l2, ih]

/-- C6: an inactive body exerts and receives zero force, is never detected
as colliding, contributes nothing to the kinetic or potential energy sums,
is left entirely unchanged by an integration step, and stepping a body set
in which every body is inactive changes nothing at all. -/
theorem inactive_body_inert (b : Body) (hb : b.active = false) :
    (∀ (cfg : SimulationConfig) (other : Body) (same : Bool),
        b.calculate_force_from other same = 0 ∧
        other.calculate_force_from b same = 0 ∧
        b.check_collision cfg other same = false ∧
        other.check_collision cfg b same = false ∧
        b.potential_energy_with other same = 0 ∧
        other.potential_energy_with b same = 0) ∧
    (∀ l1 l2 : List Body,
        calculate_system_energy (l1 ++ b :: l2) = calculate_system_energy (l1 ++ l2)) ∧
    (∀ dt : ℝ, b.verlet_update dt = b) ∧
    (∀ (bodies : List Body) (dt : ℝ), (∀ x ∈ bodies, x.active = false) →
        sim_step bodies dt = bodies) := by
  refine ⟨?_, ?_, ?_, ?_⟩
  · intro cfg other same
    refine ⟨?_, ?_, ?_, ?_, ?_, ?_⟩ <;>
      simp [Body.calculate_force_from, Body.check_collision,
        Body.potential_energy_with, hb]
  · intro l1 l2
    simp only [calculate_system_energy]
    rw [kinetic_sum_insert_inactive b hb l1 l2, potential_sum_insert_inactive b hb l1 l2]
  · intro dt
    exact verlet_update_inactive b dt hb
  · intro bodies dt hall
    unfold sim_step
    rw [accel_pass_all_inactive bodies hall, verlet_pass_all_inactive bodies dt hall]

/-- Witness: `inactive_body_inert` applied to the concrete inactive body
`idleBody` (which carries nonzero kinematic state). -/
theorem inactive_body_inert_witness :
    idleBody.active = false ∧
    ((∀ (cfg : SimulationConfig) (other : Body) (same : Bool),
        idleBody.calculate_force_from other same = 0 ∧
        other.calculate_force_from idleBody same = 0 ∧
        idleBody.check_collision cfg other same = false ∧
        other.check_collision cfg idleBody same = false ∧
        idleBody.potential_energy_with other same = 0 ∧
        other.potential_energy_with idleBody same = 0) ∧
     (∀ l1 l2 : List Body,
        calculate_system_energy (l1 ++ idleBody :: l2) = calculate_system_energy (l1 ++ l2)) ∧
     (∀ dt : ℝ, idleBody.verlet_update dt = idleBody) ∧
     (∀ (bodies : List Body) (dt : ℝ), (∀ x ∈ bodies, x.active = false) →
        sim_step bodies dt = bodies)) :=
  ⟨rfl, inactive_body_inert idleBody rfl⟩

theorem accel_pass_length (bodies : List Body) :
    (accel_pass bodies).length = bodies.length := by
  unfold accel_pass
  rw [List.length_map, List.length_range]

theorem verlet_pass_length (bodies : List Body) (dt : ℝ) :
    (verlet_pass bodies dt).length = bodies.length := by
  unfold verlet_pass
  rw [List.length_map]

theorem accel_pass_getD (bodies : List Body) (i : ℕ) (h : i < bodies.length) :
    (accel_pass bodies).getD i default
      = (let b := bodies.getD i default
         if b.active then { b with acceleration := accel_of bodies i b } else b) := by
  unfold accel_pass
  rw [List.getD_eq_getElem _ _ (by rw [List.length_map, List.length_range]; exact h)]
  rw [List.getElem_map, List.getElem_range]

theorem verlet_pass_getD (l : List Body) (dt : ℝ) (i : ℕ) (h : i < l.length) :
    (verlet_pass l dt).getD i default = (l.getD i default).verlet_update dt := by
  unfold verlet_pass
  rw [List.getD_eq_getElem _ _ (by rw [List.length_map]; exact h), List.getElem_map,
    ← List.getD_eq_getElem l default h]

theorem sum_mul_scalar (s : Finset ℕ) (f : ℕ → Vector3) (c : ℝ) :
    (∑ i ∈ s, f i) * c = ∑ i ∈ s, f i * c :=
  map_sum (Vector3.mulHom c) f s

theorem beq_comm_nat (i j : ℕ) : (i == j) = (j == i) := by
  by_cases h : i = j
  · simp [h]
  · simp [h, Ne.symm h]

theorem ite_add_zero_vec (c : Bool) (X Y : Vector3) :
    (if c then X + Y else 0) = (if c then X else 0) + (if c then Y else 0) := by
  cases c <;> simp

theorem sum_range_antisym_real (n : ℕ) (f : ℕ → ℕ → ℝ)
    (h : ∀ i j, f i j = -f j i) :
    ∑ i ∈ Finset.range n, ∑ j ∈ Finset.range n, f i j = 0 := by
  have h2 : ∑ i ∈ Finset.range n, ∑ j ∈ Finset.range n, f i j
      = -∑ i ∈ Finset.range n, ∑ j ∈ Finset.range n, f i j := by
    calc ∑ i ∈ Finset.range n, ∑ j ∈ Finset.range n, f i j
        = ∑ i ∈ Finset.range n, ∑ j ∈ Finset.range n, -f j i := by
          refine Finset.sum_congr rfl fun i _ => Finset.sum_congr rfl fun j _ => h i j
      _ = -∑ i ∈ Finset.range n, ∑ j ∈ Finset.range n, f j i := by
          simp [Finset.sum_neg_distrib]
      _ = -∑ j ∈ Finset.range n, ∑ i ∈ Finset.range n, f j i := by
          rw [Finset.sum_comm]
  linarith

theorem sum_range_antisym_vec (n : ℕ) (g : ℕ → ℕ → Vector3)
    (h : ∀ i j, g i j = -g j i) :
    ∑ i ∈ Finset.range n, ∑ j ∈ Finset.range n, g i j = 0 := by
  have key : ∀ φ : Vector3 →+ ℝ,
      φ (∑ i ∈ Finset.range n, ∑ j ∈ Finset.range n, g i j) = 0 := by
    intro φ
    rw [map_sum]
    calc ∑ i ∈ Finset.range n, φ (∑ j ∈ Finset.range n, g i j)
        = ∑ i ∈ Finset.range n, ∑ j ∈ Finset.range n, φ (g i j) := by
          refine Finset.sum_congr rfl fun i _ => map_sum φ _ _
      _ = 0 := by
          apply sum_range_antisym_real
          intro i j
          rw [h i j, map_neg]
  apply Vector3.ext
  · exact key Vector3.xHom
  · exact key Vector3.yHom
  · exact key Vector3.zHom

/-- C5 (amended): a collision-free simulation step — force accumulation
followed by Verlet integration — preserves the total momentum `Σ mᵢ·vᵢ` of
the active bodies in exact arithmetic, provided the stored previous
accelerations of the active bodies have zero mass-weighted sum.  (That side
condition holds for freshly constructed bodies, whose `prev_acceleration`
is zero, and is re-established by every force pass, so it is an invariant
of the simulation loop; it is not a consequence of a single step alone.) -/
theorem momentum_conserved_amended (bodies : List Body) (dt : ℝ)
    (hprev : weighted_prev_accel_sum bodies = 0) :
    total_momentum (sim_step bodies dt) = total_momentum bodies := by
  have hlenA : (accel_pass bodies).length = bodies.length := accel_pass_length bodies
  have hlenS : (sim_step bodies dt).length = bodies.length := by
    unfold sim_step
    rw [verlet_pass_length, hlenA]
  have hterm : ∀ i ∈ Finset.range bodies.length,
      (let b := (sim_step bodies dt).getD i default
       if b.active then b.velocity * b.mass else 0)
      = (let b := bodies.getD i default
         if b.active then b.velocity * b.mass else 0)
        + (let b := bodies.getD i default
           if b.active then b.prev_acceleration * b.mass + accel_of bodies i b * b.mass
           else 0) * (0.5 * dt) := by
    intro i hi
    have hilt : i < bodies.length := Finset.mem_range.mp hi
    have hgetS : (sim_step bodies dt).getD i default
        = ((accel_pass bodies).getD i default).verlet_update dt := by
      unfold sim_step
      exact verlet_pass_getD _ dt i (by rw [hlenA]; exact hilt)
    rw [hgetS, accel_pass_getD bodies i hilt]
    cases hact : (bodies.getD i default).active
    · simp only [hact, Bool.false_eq_true, if_false]
      rw [verlet_update_inactive _ dt hact]
      simp only [hact, Bool.false_eq_true, if_false, Vector3.zero_mul, add_zero]
    · simp only [hact, if_true]
      unfold Body.verlet_update
      simp only [hact, Bool.not_true, Bool.false_eq_true, if_false, if_true]
      apply Vector3.ext <;>
        simp only [Vector3.add_x, Vector3.add_y, Vector3.add_z, Vector3.mul_x,
          Vector3.mul_y, Vector3.mul_z] <;> ring
  have hstep1 : ∀ i ∈ Finset.range bodies.length,
      (let b := bodies.getD i default
       if b.active then accel_of bodies i b * b.mass else 0)
      = ∑ j ∈ Finset.range bodies.length,
          (if (bodies.getD i default).active then
            (if (bodies.getD j default).active then
              (bodies.getD i default).calculate_force_from (bodies.getD j default) (i == j)
             else 0)
           else 0) := by
    intro i _
    cases hact : (bodies.getD i default).active
    · simp only [hact, Bool.false_eq_true, if_false, Finset.sum_const_zero]
    · simp only [hact, if_true]
      unfold accel_of
      rw [sum_mul_scalar]
      refine Finset.sum_congr rfl fun j _ => ?_
      cases hactj : (bodies.getD j default).active
      · simp only [hactj, Bool.false_eq_true, if_false, Vector3.zero_mul]
      · simp only [hactj, if_true]
        exact force_div_mass_mul_mass _ _ _
  have hacc : ∑ i ∈ Finset.range bodies.length,
      (let b := bodies.getD i default
       if b.active then accel_of bodies i b * b.mass else 0) = 0 := by
    rw [Finset.sum_congr rfl hstep1]
    apply sum_range_antisym_vec
    intro i j
    cases hi2 : (bodies.getD i default).active <;>
      cases hj2 : (bodies.getD j default).active <;> simp [hi2, hj2]
    rw [beq_comm_nat j i]
    exact force_antisym _ _ _
  have hY : ∑ i ∈ Finset.range bodies.length,
      (let b := bodies.getD i default
       if b.active then b.prev_acceleration * b.mass + accel_of bodies i b * b.mass
       else 0)
      = weighted_prev_accel_sum bodies
        + ∑ i ∈ Finset.range bodies.length,
            (let b := bodies.getD i default
             if b.active then accel_of bodies i b * b.mass else 0) := by
    calc ∑ i ∈ Finset.range bodies.length,
          (let b := bodies.getD i default
           if b.active then b.prev_acceleration * b.mass + accel_of bodies i b * b.mass
           else 0)
        = ∑ i ∈ Finset.range bodies.length,
            ((let b := bodies.getD i default
              if b.active then b.prev_acceleration * b.mass else 0)
             + (let b := bodies.getD i default
                if b.active then accel_of bodies i b * b.mass else 0)) :=
          Finset.sum_congr rfl fun i _ => ite_add_zero_vec _ _ _
      _ = _ := Finset.sum_add_distrib
  unfold total_momentum
  rw [hlenS, Finset.sum_congr rfl hterm, Finset.sum_add_distrib, ← sum_mul_scalar,
    hY, hprev, zero_add, hacc, Vector3.zero_mul, add_zero]

/-- C5 falsified as stated at a concrete input: a single active unit-mass
body at rest whose stored `prev_acceleration` is `(1,0,0)`.  The force pass
gives it zero new acceleration, but the Verlet velocity update still feeds
the stale `prev_acceleration` into the velocity, so the total momentum
changes from `0` to `(1,0,0)` across one collision-free step with
`dt = 2`. -/
theorem momentum_step_counterexample :
    total_momentum (sim_step [prevBody] 2) ≠ total_momentum [prevBody] := by
  have hlen : (sim_step [prevBody] 2).length = 1 := by
    unfold sim_step
    rw [verlet_pass_length, accel_pass_length]
    rfl
  have hacc0 : accel_of [prevBody] 0 prevBody = 0 := by
    unfold accel_of
    rw [show ([prevBody] : List Body).length = 1 from rfl, Finset.sum_range_one]
    show (if prevBody.active = true
        then prevBody.calculate_force_from prevBody (0 == 0) / prevBody.mass else 0) = 0
    simp [Body.calculate_force_from, prevBody, Vector3.zero_div]
  have hget : (sim_step [prevBody] 2).getD 0 default
      = ({ prevBody with acceleration := accel_of [prevBody] 0 prevBody }).verlet_update 2 := by
    unfold sim_step
    rw [verlet_pass_getD _ 2 0 (by rw [accel_pass_length]; norm_num),
      accel_pass_getD [prevBody] 0 (by norm_num)]
    rfl
  have hM1 : total_momentum [prevBody] = 0 := by
    unfold total_momentum
    rw [show ([prevBody] : List Body).length = 1 from rfl, Finset.sum_range_one]
    show (if prevBody.active = true then prevBody.velocity * prevBody.mass else 0) = 0
    apply Vector3.ext <;> simp [prevBody]
  have hM2 : (total_momentum (sim_step [prevBody] 2)).x = 1 := by
    unfold total_momentum
    rw [hlen, Finset.sum_range_one, hget, hacc0]
    simp [prevBody, Body.verlet_update]
    norm_num
  intro hcontra
  have hx := congrArg Vector3.x hcontra
  rw [hM2, hM1, Vector3.zero_x] at hx
  norm_num at hx

/-- Witness: `momentum_conserved_amended` applied to the single-body
collection `[restBody]`, whose stored previous acceleration is zero, with
`dt = 1`. -/
theorem momentum_conserved_amended_witness :
    weighted_prev_accel_sum [restBody] = 0 ∧
    total_momentum (sim_step [restBody] (1 : ℝ)) = total_momentum [restBody] := by
  have hprev : weighted_prev_accel_sum [restBody] = 0 := by
    unfold weighted_prev_accel_sum
    rw [show ([restBody] : List Body).length = 1 from rfl, Finset.sum_range_one]
    show (if restBody.active = true
        then restBody.prev_acceleration * restBody.mass else 0) = 0
    apply Vector3.ext <;> simp [restBody]
  exact ⟨hprev, momentum_conserved_amended [restBody] 1 hprev⟩

end

end CelestialSim
